import Mathlib

/-!
Verification of the heading-classification core of `pdf_extractor.py`
(PDF outline extractor).  The Python source is shallowly embedded:

* strings are `String` (a list of `Char`); Python's `re` patterns, which are
  anchored with `re.match` and use only the character classes `\d`, `\s`,
  `[A-Z]`, `[a-z]` and literal characters, are embedded as executable
  first-match parsers over `List Char` (each greedy quantifier in the source
  patterns is followed by a disjoint character class, so maximal-munch
  parsing coincides with the backtracking semantics of `re`);
* Python floats (font sizes) are embedded as rationals `ℚ`;
* code that can raise (`max()` on an empty sequence, `text[0]` on an empty
  string) returns `Option`, with `none` for the raised exception;
* Unicode-sensitive Python predicates (`str.strip`, `str.split`,
  `str.isupper`, `\d`, `\s`) are embedded through Lean's ASCII-oriented
  `Char` predicates (`Char.isWhitespace`, `Char.isDigit`, `Char.isUpper`,
  `Char.isAlpha`), which agree with Python on the ASCII inputs the
  heuristics target.
-/

/-- Python `str.strip()` on a list of characters: drop leading and trailing
whitespace. -/
def pyStripList (cs : List Char) : List Char :=
  ((cs.dropWhile Char.isWhitespace).reverse.dropWhile Char.isWhitespace).reverse

/-- Python `str.strip()`. -/
def pyStrip (s : String) : String :=
  ⟨pyStripList s.data⟩

/-- Streaming form of `re.sub(r'\s+', ' ', s)`: every maximal run of
whitespace becomes a single space.  The boolean records whether the previous
character belonged to a whitespace run. -/
def normWSAux : List Char → Bool → List Char
  | [], _ => []
  | c :: rest, prevWS =>
    if c.isWhitespace then
      if prevWS then normWSAux rest true else ' ' :: normWSAux rest true
    else c :: normWSAux rest false

/-- `re.sub(r'\s+', ' ', s)` from the outline assembler. -/
def normWS (s : String) : String :=
  ⟨normWSAux s.data false⟩

/-- Helper for `len(s.split())`: counts maximal non-whitespace runs.  The
boolean records whether the previous character was inside a word. -/
def wordCountAux : List Char → Bool → Nat
  | [], _ => 0
  | c :: rest, inWord =>
    if c.isWhitespace then wordCountAux rest false
    else (if inWord then 0 else 1) + wordCountAux rest true

/-- Python `len(s.split())`: the number of whitespace-separated words. -/
def pyWordCount (s : String) : Nat :=
  wordCountAux s.data false

/-- Python `s.isupper()` (ASCII fragment): at least one letter and no
lowercase letter. -/
def pyIsUpper (s : String) : Bool :=
  s.data.any Char.isAlpha && s.data.all (fun c => !c.isAlpha || c.isUpper)

/-- Python `s.startswith(kw)` on character lists. -/
def startsWithList : List Char → List Char → Bool
  | [], _ => true
  | _ :: _, [] => false
  | p :: ps, c :: cs => p == c && startsWithList ps cs

/-- `re.match(r'^\d+$', s)`: the whole string is one or more digits. -/
def allDigits (cs : List Char) : Bool :=
  !cs.isEmpty && cs.all Char.isDigit

/-- Consume one-or-more characters satisfying `p` (the greedy `X+` of the
source patterns); `none` when the first character does not satisfy `p`. -/
def dropWhile1 (p : Char → Bool) : List Char → Option (List Char)
  | [] => none
  | c :: rest => if p c then some (rest.dropWhile p) else none

/-- The negated class `[^.!?]` of the source patterns. -/
def noPunct (c : Char) : Bool :=
  c != '.' && c != '!' && c != '?'

/-- Consume the optional literal dot `\.?`. -/
def optDot (cs : List Char) : List Char :=
  match cs with
  | '.' :: rest => rest
  | _ => cs

/-- Pattern `^(\d+\.?\s+[A-Z][^.!?]*?)$` ("1. Introduction"). -/
def patNum1 (cs : List Char) : Bool :=
  match dropWhile1 Char.isDigit cs with
  | some cs1 =>
    match dropWhile1 Char.isWhitespace (optDot cs1) with
    | some (c :: rest) => c.isUpper && rest.all noPunct
    | _ => false
  | none => false

/-- Pattern `^(\d+\.\d+\.?\s+[A-Z][^.!?]*?)$` ("1.1 Subsection"). -/
def patNum2 (cs : List Char) : Bool :=
  match dropWhile1 Char.isDigit cs with
  | some ('.' :: r1) =>
    match dropWhile1 Char.isDigit r1 with
    | some cs1 =>
      match dropWhile1 Char.isWhitespace (optDot cs1) with
      | some (c :: rest) => c.isUpper && rest.all noPunct
      | _ => false
    | none => false
  | _ => false

/-- Pattern `^(\d+\.\d+\.\d+\.?\s+[A-Z][^.!?]*?)$` ("1.1.1 Subsubsection"). -/
def patNum3 (cs : List Char) : Bool :=
  match dropWhile1 Char.isDigit cs with
  | some ('.' :: r1) =>
    match dropWhile1 Char.isDigit r1 with
    | some ('.' :: r2) =>
      match dropWhile1 Char.isDigit r2 with
      | some cs1 =>
        match dropWhile1 Char.isWhitespace (optDot cs1) with
        | some (c :: rest) => c.isUpper && rest.all noPunct
        | _ => false
      | none => false
    | _ => false
  | _ => false

/-- Pattern `^([A-Z][A-Z\s]{2,}[A-Z])$` (ALL CAPS headings): length at least
4, uppercase first and last characters, uppercase-or-whitespace in between. -/
def patAllCaps (cs : List Char) : Bool :=
  decide (4 ≤ cs.length) &&
  (match cs with
   | c :: _ => c.isUpper
   | [] => false) &&
  (match cs.getLast? with
   | some c => c.isUpper
   | none => false) &&
  ((cs.drop 1).dropLast.all fun c => c.isUpper || c.isWhitespace)

/-- One Title-Case word `[A-Z][a-z]+`. -/
def word1 (cs : List Char) : Option (List Char) :=
  match cs with
  | c :: rest => if c.isUpper then dropWhile1 Char.isLower rest else none
  | [] => none

/-- The iterated group `(?:\s+[A-Z][a-z]+)*` of the Title-Case pattern,
with fuel (each iteration consumes at least two characters, so
`cs.length + 1` fuel is always enough). -/
def titleWordsLoop : Nat → List Char → List Char
  | 0, cs => cs
  | fuel + 1, cs =>
    match dropWhile1 Char.isWhitespace cs with
    | some cs1 =>
      match word1 cs1 with
      | some cs2 => titleWordsLoop fuel cs2
      | none => cs
    | none => cs

/-- Pattern `^([A-Z][a-z]+(?:\s+[A-Z][a-z]+)*):?\s*$` (Title Case headings). -/
def patTitleCase (cs : List Char) : Bool :=
  match word1 cs with
  | some cs1 =>
    let cs2 := titleWordsLoop (cs1.length + 1) cs1
    ((optColon cs2).dropWhile Char.isWhitespace).isEmpty
  | none => false
where
  /-- Consume the optional literal colon `:?`. -/
  optColon (cs : List Char) : List Char :=
    match cs with
    | ':' :: rest => rest
    | _ => cs

/-- Pattern `^(<kw>\s+\d+[:\s]+[^.!?]*?)$` for `kw` "Chapter" or "Section". -/
def patKeyword (kw : List Char) (cs : List Char) : Bool :=
  if startsWithList kw cs then
    match dropWhile1 Char.isWhitespace (cs.drop kw.length) with
    | some cs1 =>
      match dropWhile1 Char.isDigit cs1 with
      | some (c :: rest) => (c == ':' || c.isWhitespace) && rest.all noPunct
      | _ => false
    | none => false
  else false

/-- Classifier fallback `re.match(r'^\d+\.', text)`. -/
def startsD (cs : List Char) : Bool :=
  match dropWhile1 Char.isDigit cs with
  | some ('.' :: _) => true
  | _ => false

/-- Classifier fallback `re.match(r'^\d+\.\d+', text)`. -/
def startsDD (cs : List Char) : Bool :=
  match dropWhile1 Char.isDigit cs with
  | some ('.' :: rest) => (dropWhile1 Char.isDigit rest).isSome
  | _ => false

/-- Classifier fallback `re.match(r'^\d+\.\d+\.\d+', text)`. -/
def startsDDD (cs : List Char) : Bool :=
  match dropWhile1 Char.isDigit cs with
  | some ('.' :: rest) =>
    match dropWhile1 Char.isDigit rest with
    | some ('.' :: rest2) => (dropWhile1 Char.isDigit rest2).isSome
    | _ => false
  | _ => false

/-- Title cleanup `re.sub(r'^\d+\.?\s*', '', title)`: strip a leading digit
run, an optional dot, and following whitespace. -/
def stripLeadingNum (cs : List Char) : List Char :=
  match cs with
  | c :: rest =>
    if c.isDigit then ((rest.dropWhile Char.isDigit) |> optDot).dropWhile Char.isWhitespace
    else c :: rest
  | [] => []

/-- One extracted line: text, average font size, 1-based page, bounding box
(the bounding box is carried by the extractor but unused by classification). -/
structure LineRecord where
  text : String
  font_size : ℚ
  page : Nat
  bbox : ℚ × ℚ × ℚ × ℚ
deriving DecidableEq

/-- The four dynamically determined font-size cutoffs. -/
structure FontThresholds where
  title : ℚ
  h1 : ℚ
  h2 : ℚ
  h3 : ℚ
deriving DecidableEq

/-- A classification outcome ("title", "H1", "H2", "H3" in the source). -/
inductive HeadingLevel where
  | title
  | H1
  | H2
  | H3
deriving DecidableEq

/-- One outline entry as appended by `extract_outline`. -/
structure OutlineEntry where
  level : HeadingLevel
  text : String
  page : Nat
deriving DecidableEq

/-- The result record of `extract_outline`. -/
structure OutlineResult where
  title : String
  outline : List OutlineEntry
deriving DecidableEq

/-- Descending order on font sizes, used for
`sorted(font_counter.keys(), reverse=True)`. -/
def sizeGE (a b : ℚ) : Prop := b ≤ a

instance : DecidableRel sizeGE := fun a b => inferInstanceAs (Decidable (b ≤ a))

instance : IsTotal ℚ sizeGE := ⟨fun a b => le_total b a⟩

instance : IsTrans ℚ sizeGE := ⟨fun _ _ _ h1 h2 => le_trans h2 h1⟩

/-- `sorted(Counter(font_sizes).keys(), reverse=True)`: the distinct font
sizes in descending order. -/
def uniqueSizesDesc (sizes : List ℚ) : List ℚ :=
  List.insertionSort sizeGE sizes.dedup

/-- The threshold assignment of `determine_font_thresholds` on the sorted
distinct sizes: `none` models the `max()` of an empty sequence raising. -/
def thresholdsOfSizes : List ℚ → Option FontThresholds
  | [] => none
  | [s0] => some ⟨s0, s0, s0, s0⟩
  | [s0, s1] => some ⟨s0, s1, s1, s1⟩
  | [s0, s1, s2] => some ⟨s0, s1, s2, s2⟩
  | s0 :: s1 :: s2 :: s3 :: _ => some ⟨s0, s1, s2, s3⟩

/-- `PDFOutlineExtractor.determine_font_thresholds`. -/
def determine_font_thresholds (formatted_text : List LineRecord) : Option FontThresholds :=
  thresholdsOfSizes (uniqueSizesDesc (formatted_text.map fun r => r.font_size))

/-- `PDFOutlineExtractor.is_heading_by_pattern`: the length gate followed by
the seven heading patterns in source order. -/
def is_heading_by_pattern (text : String) : Bool :=
  let t := pyStripList text.data
  if t.length < 3 || 200 < t.length then false
  else
    patNum1 t || patAllCaps t || patTitleCase t ||
    patKeyword "Chapter".data t || patKeyword "Section".data t ||
    patNum2 t || patNum3 t

/-- The font-size `if`/`elif` chain of `classify_heading_level` (rules 2-3):
`none` when the font size is below every threshold. -/
def fontSizeRule (th : FontThresholds) (font_size : ℚ) (page : Nat) : Option HeadingLevel :=
  if decide (th.title ≤ font_size) && page == 1 then some .title
  else if th.h1 ≤ font_size then some .H1
  else if th.h2 ≤ font_size then some .H2
  else if th.h3 ≤ font_size then some .H3
  else none

/-- The numeric-prefix / ALL-CAPS fallback of `classify_heading_level`
(rule 4), consulted only when no font-size rule fires. -/
def fallbackRule (t : String) : Option HeadingLevel :=
  if startsDDD t.data then some .H3
  else if startsDD t.data then some .H2
  else if startsD t.data then some .H1
  else if pyIsUpper t && decide (pyWordCount t ≤ 5) then some .H1
  else none

/-- Rules 2-4 of `classify_heading_level`. -/
def classifyRules (th : FontThresholds) (t : String) (font_size : ℚ) (page : Nat) :
    Option HeadingLevel :=
  match fontSizeRule th font_size page with
  | some l => some l
  | none => fallbackRule t

/-- The no-pattern path of `classify_heading_level`: evaluate
`text[0].isupper() and len(text.split()) <= 10` on the stripped text `t`,
whose character list is the last argument.  On the empty list the `text[0]`
access raises `IndexError`, modelled by `none`. -/
def classifyNoPattern (th : FontThresholds) (t : String) (font_size : ℚ)
    (page : Nat) : List Char → Option (Option HeadingLevel)
  | [] => none
  | c :: _ =>
    if c.isUpper && decide (pyWordCount t ≤ 10) then some (classifyRules th t font_size page)
    else some none

/-- `PDFOutlineExtractor.classify_heading_level`.  The outer `Option` models
raising: the source evaluates `text[0]` only when the pattern gate fails, and
that access raises `IndexError` exactly when the stripped text is empty. -/
def classify_heading_level (th : FontThresholds) (text : String) (font_size : ℚ)
    (page : Nat) : Option (Option HeadingLevel) :=
  if is_heading_by_pattern (pyStrip text) then
    some (classifyRules th (pyStrip text) font_size page)
  else classifyNoPattern th (pyStrip text) font_size page (pyStrip text).data

/-- The secondary-scan condition of `extract_title` on one record. -/
def titleFallbackOk (r : LineRecord) : Bool :=
  let t := pyStrip r.text
  decide (5 < t.length) && decide (t.length < 100) &&
  !(startsWithList "Page".data t.data || startsWithList "Chapter".data t.data ||
    startsWithList "Section".data t.data) &&
  !allDigits t.data

/-- `PDFOutlineExtractor.extract_title`. -/
def extract_title (formatted_text : List LineRecord) : String :=
  match formatted_text.filter (fun r => r.page == 1) with
  | [] => "Untitled Document"
  | f :: rest =>
    let maxfs := rest.foldl (fun acc r => max acc r.font_size) f.font_size
    match (f :: rest).find? (fun r => r.font_size == maxfs && decide (3 < r.text.length)) with
    | some c => pyStrip ⟨stripLeadingNum c.text.data⟩
    | none =>
      match ((f :: rest).take 10).find? titleFallbackOk with
      | some r => pyStrip r.text
      | none => "Untitled Document"

/-- The per-record body of the assembly loop of `extract_outline`, as the
entry it would append (before the duplicate check): `none` when the record is
skipped for a reason other than being a duplicate. -/
def candOf (th : FontThresholds) (r : LineRecord) : Option OutlineEntry :=
  match classify_heading_level th r.text r.font_size r.page with
  | some (some lev) =>
    if lev = HeadingLevel.title then none
    else if 2 < (normWS (pyStrip r.text)).length then
      some ⟨lev, normWS (pyStrip r.text), r.page⟩
    else none
  | _ => none

/-- The candidate entries of a document in encounter order (before
deduplication and sorting). -/
def outlineCandidates (records : List LineRecord) : List OutlineEntry :=
  match determine_font_thresholds records with
  | some th => records.filterMap (candOf th)
  | none => []

/-- Keep the first entry for each normalized text, given the set of texts
already emitted (the `seen_headings` set of the source). -/
def dedupFirstAux (seen : List String) : List OutlineEntry → List OutlineEntry
  | [] => []
  | e :: rest =>
    if e.text ∈ seen then dedupFirstAux seen rest
    else e :: dedupFirstAux (e.text :: seen) rest

/-- The assembly loop of `extract_outline`: walk the records, classify each,
and append non-title, non-duplicate, length > 2 entries.  The outer `Option`
propagates a raise from `classify_heading_level`. -/
def outlineLoop (th : FontThresholds) : List LineRecord → List String →
    Option (List OutlineEntry)
  | [], _ => some []
  | item :: rest, seen =>
    match classify_heading_level th item.text item.font_size item.page with
    | none => none
    | some none => outlineLoop th rest seen
    | some (some lev) =>
      if lev = HeadingLevel.title then outlineLoop th rest seen
      else
        let ht := normWS (pyStrip item.text)
        if ht ∉ seen ∧ 2 < ht.length then
          (outlineLoop th rest (ht :: seen)).map (fun tl => ⟨lev, ht, item.page⟩ :: tl)
        else outlineLoop th rest seen

/-- Ordering of outline entries by page, used for
`outline.sort(key=lambda x: x["page"])`. -/
def pageLE (a b : OutlineEntry) : Prop := a.page ≤ b.page

instance : DecidableRel pageLE := fun a b => inferInstanceAs (Decidable (a.page ≤ b.page))

instance : IsTotal OutlineEntry pageLE := ⟨fun a b => Nat.le_total a.page b.page⟩

instance : IsTrans OutlineEntry pageLE := ⟨fun _ _ _ => Nat.le_trans⟩

/-- `PDFOutlineExtractor.extract_outline`, from the extracted records onward
(the PDF walk itself is the external collaborator).  `List.insertionSort` is
a stable sort, like Python's `list.sort`. -/
def extract_outline (formatted_text : List LineRecord) : Option OutlineResult :=
  if formatted_text.isEmpty then some ⟨"Empty Document", []⟩
  else
    match determine_font_thresholds formatted_text with
    | none => none
    | some th =>
      match outlineLoop th formatted_text [] with
      | none => none
      | some outline =>
        some ⟨extract_title formatted_text, List.insertionSort pageLE outline⟩

/-! ### Concrete inputs used by the claims -/

/-- A placeholder bounding box (classification never reads it). -/
def bb0 : ℚ × ℚ × ℚ × ℚ := (0, 0, 0, 0)

/-- The three-record document of the spec's worked example. -/
def ex1 : List LineRecord :=
  [⟨"1. Introduction", 18, 1, bb0⟩, ⟨"1.1 Background", 14, 1, bb0⟩,
   ⟨"1.1 Background", 14, 2, bb0⟩]

/-- A document with five distinct font sizes; the last record's size lies
below all four thresholds. -/
def exC2 : List LineRecord :=
  [⟨"AAAA", 20, 1, bb0⟩, ⟨"BBBB", 18, 1, bb0⟩, ⟨"CCCC", 16, 1, bb0⟩,
   ⟨"DDDD", 14, 1, bb0⟩, ⟨"1.1 Background", 12, 2, bb0⟩]

/-- A 201-character single-word line, longer than the 200-character gate. -/
def strA201 : String := ⟨List.replicate 201 'A'⟩

/-! ### Claim theorems -/

/-- C1 (counterexample): on the three-record example the code infers
h1 = 14 (the second-largest distinct size), not 18, and the surviving
entry is classified H1 (14 is at least the h1 threshold), not H2. -/
theorem c1_counterexample :
    determine_font_thresholds ex1 ≠ some ⟨18, 18, 14, 14⟩ ∧
    (extract_outline ex1).map (fun r => r.outline) ≠
      some [⟨HeadingLevel.H2, "1.1 Background", 1⟩] := by
  decide

/-- C1 (amended): for the three-record example the inferred thresholds are
title = 18, h1 = 14, h2 = 14, h3 = 14, and the assembled outline is exactly
one entry of level H1 with text "1.1 Background" on page 1: "1. Introduction"
is classified title and excluded, and the page-2 duplicate is dropped by
deduplication. -/
theorem c1_example_outline :
    determine_font_thresholds ex1 = some ⟨18, 14, 14, 14⟩ ∧
    extract_outline ex1 =
      some ⟨"Introduction", [⟨HeadingLevel.H1, "1.1 Background", 1⟩]⟩ := by
  decide

/-- C2 (counterexample): a document with five distinct font sizes (hence at
least 4) in which the line "1.1 Background" of size 12 is not rejected (it is
classified H2) yet no font-size rule fires for it: the numeric-prefix
fallback is reached without any threshold collapse. -/
theorem c2_counterexample :
    4 ≤ (uniqueSizesDesc (exC2.map fun r => r.font_size)).length ∧
    determine_font_thresholds exC2 = some ⟨20, 18, 16, 14⟩ ∧
    classify_heading_level ⟨20, 18, 16, 14⟩ "1.1 Background" 12 2 =
      some (some HeadingLevel.H2) ∧
    fontSizeRule ⟨20, 18, 16, 14⟩ 12 2 = none := by
  decide

set_option maxRecDepth 4000 in
/-- C3 (counterexample): a 201-character line (one all-caps word) is accepted
by the uppercase-start fallback of the classifier, so it appears as an
outline entry; on page 1 at maximal size the same line is chosen as the
selected title by the primary scan.  Lines longer than 200 characters are
only rejected by the pattern gate, not by the classifier or title selector. -/
theorem c3_counterexample :
    (extract_outline [⟨strA201, 12, 2, bb0⟩]).map (fun r => r.outline) =
      some [⟨HeadingLevel.H1, strA201, 2⟩] ∧
    extract_title [⟨strA201, 12, 1, bb0⟩] = strA201 ∧
    200 < strA201.length := by
  decide

/-- C7: an empty record sequence yields exactly the result with title
"Empty Document" and an empty outline, as a normal (`some`) outcome; the
guard is what prevents the threshold computation, which on the empty
sequence would fail (Python's `max` of an empty sequence raises). -/
theorem extract_outline_empty :
    extract_outline [] = some ⟨"Empty Document", []⟩ ∧
    determine_font_thresholds [] = none := by
  decide

/-- C8: the pipeline from records to the title/outline record is a pure
function of its input: classifying equal record sequences yields equal
results.  (The mutable `font_thresholds` field of the source is recomputed
from the input at the start of every `extract_outline` call, so no state
survives between runs.) -/
theorem extract_outline_deterministic (r1 r2 : List LineRecord) (h : r1 = r2) :
    extract_outline r1 = extract_outline r2 := by
  rw [h]

/-- Witness for C8 at a concrete input. -/
theorem extract_outline_deterministic_witness :
    extract_outline ex1 = extract_outline ex1 :=
  extract_outline_deterministic ex1 ex1 rfl

/-- C10: when the first maximal-size page-1 record's text is a pure numeric
enumeration such as "123." (length 4 > 3, so it is a primary candidate),
stripping the leading-number prefix leaves the empty string, which
`extract_title` returns instead of falling through to the secondary scan or
to "Untitled Document". -/
theorem extract_title_empty_string :
    extract_title [⟨"123.", 12, 1, bb0⟩] = "" := by
  decide

/-! ### Threshold monotonicity and coverage -/

-- The distinct-size list is sorted in descending order.
theorem uniqueSizesDesc_sorted (sizes : List ℚ) :
    (uniqueSizesDesc sizes).Sorted sizeGE :=
  List.sorted_insertionSort sizeGE _

-- Every font size of the document occurs in the distinct-size list.
theorem mem_uniqueSizesDesc {x : ℚ} {sizes : List ℚ} (hx : x ∈ sizes) :
    x ∈ uniqueSizesDesc sizes :=
  (List.perm_insertionSort sizeGE _).mem_iff.mpr (List.mem_dedup.mpr hx)

-- On a descending-sorted size list the four thresholds are non-increasing.
theorem thresholdsOfSizes_monotone (L : List ℚ) (th : FontThresholds)
    (hs : L.Sorted sizeGE) (hth : thresholdsOfSizes L = some th) :
    th.h3 ≤ th.h2 ∧ th.h2 ≤ th.h1 ∧ th.h1 ≤ th.title := by
  rcases L with _ | ⟨s0, _ | ⟨s1, _ | ⟨s2, _ | ⟨s3, rest⟩⟩⟩⟩
  · simp [thresholdsOfSizes] at hth
  · simp only [thresholdsOfSizes, Option.some.injEq] at hth
    subst hth
    exact ⟨le_refl _, le_refl _, le_refl _⟩
  · simp only [thresholdsOfSizes, Option.some.injEq] at hth
    subst hth
    simp only [List.sorted_cons, List.mem_singleton, sizeGE] at hs
    exact ⟨le_refl _, le_refl _, hs.1 s1 rfl⟩
  · simp only [thresholdsOfSizes, Option.some.injEq] at hth
    subst hth
    simp only [List.sorted_cons, List.mem_cons, List.mem_singleton, sizeGE] at hs
    exact ⟨le_refl _, hs.2.1 s2 (Or.inl rfl), hs.1 s1 (Or.inl rfl)⟩
  · simp only [thresholdsOfSizes, Option.some.injEq] at hth
    subst hth
    simp only [List.sorted_cons, List.mem_cons, sizeGE] at hs
    exact ⟨hs.2.2.1 s3 (Or.inl rfl), hs.2.1 s2 (Or.inl rfl), hs.1 s1 (Or.inl rfl)⟩

/-- C4: for every record sequence on which the threshold computation
succeeds (equivalently, every non-empty sequence), the inferred cutoffs
satisfy title ≥ h1 ≥ h2 ≥ h3, including in the collapsed cases with fewer
than four distinct font sizes. -/
theorem thresholds_monotone (records : List LineRecord) (th : FontThresholds)
    (hth : determine_font_thresholds records = some th) :
    th.h3 ≤ th.h2 ∧ th.h2 ≤ th.h1 ∧ th.h1 ≤ th.title :=
  thresholdsOfSizes_monotone _ th (uniqueSizesDesc_sorted _) hth

/-- Witness for C4 on the spec's worked example. -/
theorem thresholds_monotone_witness :
    (⟨18, 14, 14, 14⟩ : FontThresholds).h3 ≤ (⟨18, 14, 14, 14⟩ : FontThresholds).h2 ∧
    (⟨18, 14, 14, 14⟩ : FontThresholds).h2 ≤ (⟨18, 14, 14, 14⟩ : FontThresholds).h1 ∧
    (⟨18, 14, 14, 14⟩ : FontThresholds).h1 ≤ (⟨18, 14, 14, 14⟩ : FontThresholds).title :=
  thresholds_monotone ex1 ⟨18, 14, 14, 14⟩ (by decide)

-- With at most four distinct sizes, h3 is the smallest distinct size, so it
-- is a lower bound for every member of the sorted distinct-size list.
theorem thresholdsOfSizes_h3_le (L : List ℚ) (th : FontThresholds) (x : ℚ)
    (hs : L.Sorted sizeGE) (hlen : L.length ≤ 4)
    (hth : thresholdsOfSizes L = some th) (hx : x ∈ L) : th.h3 ≤ x := by
  rcases L with _ | ⟨s0, _ | ⟨s1, _ | ⟨s2, _ | ⟨s3, rest⟩⟩⟩⟩
  · simp [thresholdsOfSizes] at hth
  · simp only [thresholdsOfSizes, Option.some.injEq] at hth
    subst hth
    simp only [List.mem_singleton] at hx
    subst hx
    exact le_refl _
  · simp only [thresholdsOfSizes, Option.some.injEq] at hth
    subst hth
    simp only [List.sorted_cons, List.mem_cons, List.not_mem_nil, or_false,
      sizeGE] at hs
    simp only [List.mem_cons, List.not_mem_nil, or_false] at hx
    rcases hx with hx | hx <;> subst hx
    · exact hs.1 s1 rfl
    · exact le_refl _
  · simp only [thresholdsOfSizes, Option.some.injEq] at hth
    subst hth
    simp only [List.sorted_cons, List.mem_cons, List.not_mem_nil, or_false,
      sizeGE] at hs
    simp only [List.mem_cons, List.not_mem_nil, or_false] at hx
    rcases hx with hx | hx | hx <;> subst hx
    · exact le_trans (hs.2.1 s2 rfl) (hs.1 s1 (Or.inl rfl))
    · exact hs.2.1 s2 rfl
    · exact le_refl _
  · have hrest : rest = [] := by
      simp only [List.length_cons] at hlen
      have : rest.length = 0 := by omega
      exact List.length_eq_zero.mp this
    subst hrest
    simp only [thresholdsOfSizes, Option.some.injEq] at hth
    subst hth
    simp only [List.sorted_cons, List.mem_cons, List.not_mem_nil, or_false,
      sizeGE] at hs
    have h32 : s3 ≤ s2 := hs.2.2.1 s3 rfl
    have h21 : s2 ≤ s1 := hs.2.1 s2 (Or.inl rfl)
    have h10 : s1 ≤ s0 := hs.1 s1 (Or.inl rfl)
    simp only [List.mem_cons, List.not_mem_nil, or_false] at hx
    rcases hx with hx | hx | hx | hx <;> subst hx
    · exact le_trans h32 (le_trans h21 h10)
    · exact le_trans h32 h21
    · exact h32
    · exact le_refl _

/-- C2 (amended): the numeric-prefix / all-caps fallback of the classifier
is unreachable whenever the document has at most 4 distinct font sizes
(then every record's size is at least the h3 cutoff, so a font-size rule
always fires); the fallback branch is reachable only for documents with at
least 5 distinct sizes.  (Threshold collapse, fewer than 4 distinct sizes,
makes the fallback less reachable, not more.) -/
theorem fontsize_rules_cover (records : List LineRecord) (th : FontThresholds)
    (hlen : (uniqueSizesDesc (records.map fun r => r.font_size)).length ≤ 4)
    (hth : determine_font_thresholds records = some th) :
    ∀ r ∈ records, fontSizeRule th r.font_size r.page ≠ none := by
  intro r hr
  have hx : r.font_size ∈ uniqueSizesDesc (records.map fun r => r.font_size) :=
    mem_uniqueSizesDesc (List.mem_map_of_mem _ hr)
  have hle : th.h3 ≤ r.font_size :=
    thresholdsOfSizes_h3_le _ th _ (uniqueSizesDesc_sorted _) hlen hth hx
  intro hnone
  unfold fontSizeRule at hnone
  split_ifs at hnone with hA hB hC

/-- Witness for C2's amended claim on a single-size document. -/
theorem fontsize_rules_cover_witness :
    fontSizeRule ⟨18, 18, 18, 18⟩ 18 1 ≠ none :=
  fontsize_rules_cover [⟨"1. Introduction", 18, 1, bb0⟩] ⟨18, 18, 18, 18⟩
    (by decide) (by decide) ⟨"1. Introduction", 18, 1, bb0⟩ (by decide)

/-! ### Classifier safety -/

-- The classifier returns normally exactly when the stripped text is
-- non-empty; on empty stripped text the `text[0]` access raises.
theorem classify_total_aux (th : FontThresholds) (text : String) (fs : ℚ) (page : Nat) :
    (pyStrip text ≠ "" → ∃ r, classify_heading_level th text fs page = some r) ∧
    (pyStrip text = "" → classify_heading_level th text fs page = none) := by
  constructor
  · intro hne
    have hd : (pyStrip text).data ≠ [] := fun h => hne (String.ext (h.trans rfl))
    unfold classify_heading_level
    split
    · exact ⟨_, rfl⟩
    · cases hdata : (pyStrip text).data with
      | nil => exact absurd hdata hd
      | cons c rest =>
        by_cases hb : (c.isUpper && decide (pyWordCount (pyStrip text) ≤ 10)) = true
        · exact ⟨classifyRules th (pyStrip text) fs page, by
            simp [classifyNoPattern, hb]⟩
        · exact ⟨none, by simp [classifyNoPattern, hb]⟩
  · intro hempty
    unfold classify_heading_level
    rw [hempty]
    rfl

/-- C9: for a record whose stripped text is non-empty the classifier returns
normally (some value among none, title, H1, H2, H3); the `text[0]` access of
the fallback check is evaluated only when the pattern gate fails, and for an
empty stripped text (excluded by the LineRecord precondition) that access is
out of range, modelled by the `none` result. -/
theorem classify_total (th : FontThresholds) (text : String) (fs : ℚ) (page : Nat) :
    (pyStrip text ≠ "" → ∃ r, classify_heading_level th text fs page = some r) ∧
    (pyStrip text = "" → classify_heading_level th text fs page = none) :=
  classify_total_aux th text fs page

/-- Witness for C9: a concrete non-empty line is classified without raising. -/
theorem classify_total_witness :
    ∃ r, classify_heading_level ⟨10, 10, 10, 10⟩ "Hello" 10 1 = some r :=
  (classify_total ⟨10, 10, 10, 10⟩ "Hello" 10 1).1 (by decide)

/-! ### Deduplication and the assembly loop -/

-- Every entry kept by the dedup pass comes from the input stream, has a text
-- not yet seen, and is the first input entry carrying its text.
theorem dedupFirstAux_mem (seen : List String) (l : List OutlineEntry)
    (e : OutlineEntry) (he : e ∈ dedupFirstAux seen l) :
    e ∈ l ∧ e.text ∉ seen ∧
    (l.filter (fun c => c.text == e.text)).head? = some e := by
  induction l generalizing seen with
  | nil => simp [dedupFirstAux] at he
  | cons x rest ih =>
    by_cases hx : x.text ∈ seen
    · rw [dedupFirstAux, if_pos hx] at he
      obtain ⟨h1, h2, h3⟩ := ih seen he
      have hne : (x.text == e.text) = false :=
        beq_eq_false_iff_ne.mpr fun h => h2 (h ▸ hx)
      exact ⟨List.mem_cons_of_mem _ h1, h2, by rw [List.filter_cons, hne]; exact h3⟩
    · rw [dedupFirstAux, if_neg hx] at he
      rcases List.mem_cons.mp he with he | he
      · subst he
        exact ⟨List.mem_cons_self _ _, hx, by rw [List.filter_cons, beq_self_eq_true]; rfl⟩
      · obtain ⟨h1, h2, h3⟩ := ih _ he
        have hnex : e.text ≠ x.text := fun h => h2 (h ▸ List.mem_cons_self _ _)
        have h2' : e.text ∉ seen := fun h => h2 (List.mem_cons_of_mem _ h)
        have hne : (x.text == e.text) = false := beq_eq_false_iff_ne.mpr (Ne.symm hnex)
        exact ⟨List.mem_cons_of_mem _ h1, h2', by rw [List.filter_cons, hne]; exact h3⟩

-- The dedup pass emits pairwise distinct texts.
theorem dedupFirstAux_pairwise (seen : List String) (l : List OutlineEntry) :
    (dedupFirstAux seen l).Pairwise (fun a b => a.text ≠ b.text) := by
  induction l generalizing seen with
  | nil => simp [dedupFirstAux]
  | cons x rest ih =>
    by_cases hx : x.text ∈ seen
    · rw [dedupFirstAux, if_pos hx]
      exact ih seen
    · rw [dedupFirstAux, if_neg hx]
      refine List.Pairwise.cons (fun b hb => ?_) (ih _)
      have := (dedupFirstAux_mem _ _ _ hb).2.1
      exact fun h => this (h ▸ List.mem_cons_self _ _)

-- A classify call on a record with non-empty stripped text cannot raise.
theorem classify_isSome (th : FontThresholds) (text : String) (fs : ℚ) (page : Nat)
    (hne : pyStrip text ≠ "") :
    classify_heading_level th text fs page ≠ none := by
  obtain ⟨r, hr⟩ := (classify_total_aux th text fs page).1 hne
  rw [hr]
  exact Option.some_ne_none _

-- The assembly loop is: classify every record, keep the non-title entries of
-- normalized length > 2, and drop later duplicates.
theorem outlineLoop_eq (th : FontThresholds) (records : List LineRecord)
    (seen : List String) (hwf : ∀ r ∈ records, pyStrip r.text ≠ "") :
    outlineLoop th records seen =
      some (dedupFirstAux seen (records.filterMap (candOf th))) := by
  induction records generalizing seen with
  | nil => rfl
  | cons item rest ih =>
    have hne := hwf item (List.mem_cons_self _ _)
    have hrest : ∀ r ∈ rest, pyStrip r.text ≠ "" :=
      fun r hr => hwf r (List.mem_cons_of_mem _ hr)
    rcases hc : classify_heading_level th item.text item.font_size item.page with _ | lev
    · exact absurd hc (classify_isSome th item.text item.font_size item.page hne)
    · rcases lev with _ | l
      · rw [outlineLoop, hc, List.filterMap_cons_none, ih seen hrest]
        rw [candOf, hc]
      · by_cases htitle : l = HeadingLevel.title
        · subst htitle
          rw [outlineLoop, hc, List.filterMap_cons_none, ih seen hrest]
          · simp
          · rw [candOf, hc]
            simp
        · by_cases hlen : 2 < (normWS (pyStrip item.text)).length
          · have hcand : candOf th item = some ⟨l, normWS (pyStrip item.text), item.page⟩ := by
              rw [candOf, hc]
              simp [htitle, hlen]
            by_cases hseen : normWS (pyStrip item.text) ∈ seen
            · rw [outlineLoop, hc]
              simp only [htitle, if_false]
              rw [if_neg (fun hcon => hcon.1 hseen), List.filterMap_cons_some hcand,
                ih seen hrest, dedupFirstAux, if_pos hseen]
            · rw [outlineLoop, hc]
              simp only [htitle, if_false]
              rw [if_pos (And.intro hseen hlen), List.filterMap_cons_some hcand,
                ih (normWS (pyStrip item.text) :: seen) hrest,
                dedupFirstAux, if_neg hseen]
              rfl
          · have hcand : candOf th item = none := by
              rw [candOf, hc]
              simp [htitle, hlen]
            rw [outlineLoop, hc]
            simp only [htitle, if_false]
            rw [if_neg (fun hcon => hlen hcon.2), List.filterMap_cons_none hcand,
              ih seen hrest]

-- Inversion of a successful `extract_outline` run.
theorem extract_outline_inv (records : List LineRecord) (res : OutlineResult)
    (h : extract_outline records = some res) :
    (records = [] ∧ res = ⟨"Empty Document", []⟩) ∨
    (∃ th l, determine_font_thresholds records = some th ∧
      outlineLoop th records [] = some l ∧
      res = ⟨extract_title records, List.insertionSort pageLE l⟩) := by
  unfold extract_outline at h
  split at h
  · next hemp =>
    exact Or.inl ⟨List.isEmpty_iff.mp hemp, ((Option.some.injEq _ _).mp h).symm⟩
  · split at h
    · exact absurd h (by simp)
    · next th hth =>
      split at h
      · exact absurd h (by simp)
      · next l hl =>
        exact Or.inr ⟨th, l, hth, hl, ((Option.some.injEq _ _).mp h).symm⟩

-- Filtering by a fixed page commutes with ordered insertion by page: the
-- inserted entry lands in front of the entries with its page when it
-- matches, and is dropped by the filter otherwise.
theorem filter_orderedInsert_page (x : OutlineEntry) (l : List OutlineEntry) (p : Nat) :
    (List.orderedInsert pageLE x l).filter (fun e => e.page == p) =
      if x.page = p then x :: l.filter (fun e => e.page == p)
      else l.filter (fun e => e.page == p) := by
  induction l with
  | nil =>
    simp only [List.orderedInsert, List.filter_cons, List.filter_nil]
    by_cases hx : x.page = p
    · simp [hx]
    · simp [hx, beq_eq_false_iff_ne.mpr hx]
  | cons b l ih =>
    rw [List.orderedInsert]
    by_cases hle : pageLE x b
    · rw [if_pos hle]
      by_cases hx : x.page = p
      · simp [List.filter_cons, hx]
      · simp [List.filter_cons, hx, beq_eq_false_iff_ne.mpr hx]
    · rw [if_neg hle]
      have hbx : b.page < x.page := Nat.lt_of_not_le hle
      by_cases hx : x.page = p
      · have hb : b.page ≠ p := fun h => absurd (hx ▸ h ▸ hbx) (lt_irrefl _)
        rw [List.filter_cons, List.filter_cons]
        simp only [beq_eq_false_iff_ne.mpr hb, if_neg, Bool.false_eq_true, if_false, ih,
          if_pos hx]
      · rw [List.filter_cons, List.filter_cons]
        by_cases hb : b.page = p
        · simp only [hb, beq_self_eq_true, if_true, ih, if_neg hx]
        · simp only [beq_eq_false_iff_ne.mpr hb, Bool.false_eq_true, if_false, ih, if_neg hx]

-- Stability of the page sort: filtering the sorted outline by one page
-- yields the same sequence as filtering the unsorted outline.
theorem filter_insertionSort_page (l : List OutlineEntry) (p : Nat) :
    (List.insertionSort pageLE l).filter (fun e => e.page == p) =
      l.filter (fun e => e.page == p) := by
  induction l with
  | nil => rfl
  | cons a l ih =>
    rw [List.insertionSort, filter_orderedInsert_page, List.filter_cons]
    by_cases ha : a.page = p
    · simp [ha, ih]
    · simp [ha, beq_eq_false_iff_ne.mpr ha, ih]

-- A candidate entry always carries a normalized text of length > 2.
theorem candOf_length {th : FontThresholds} {r : LineRecord} {e : OutlineEntry}
    (hc : candOf th r = some e) : 2 < e.text.length := by
  unfold candOf at hc
  split at hc
  · split at hc
    · exact absurd hc (by simp)
    · split at hc
      · next hlen =>
        rw [← (Option.some.injEq _ _).mp hc]
        exact hlen
      · exact absurd hc (by simp)
  · exact absurd hc (by simp)

/-- C5: no two entries of the assembled outline share the same
whitespace-normalized text, and each emitted entry is the first candidate
(in document order) bearing its text — later records normalizing to the same
text are dropped no matter their page or level, with case-sensitive exact
string comparison. -/
theorem extract_outline_dedup (records : List LineRecord) (res : OutlineResult)
    (hwf : ∀ r ∈ records, pyStrip r.text ≠ "")
    (h : extract_outline records = some res) :
    res.outline.Pairwise (fun a b => a.text ≠ b.text) ∧
    ∀ e ∈ res.outline,
      ((outlineCandidates records).filter (fun c => c.text == e.text)).head? = some e := by
  rcases extract_outline_inv records res h with ⟨hrec, hres⟩ | ⟨th, l, hth, hl, hres⟩
  · subst hres
    simp
  · subst hres
    have hloop := outlineLoop_eq th records [] hwf
    rw [hl] at hloop
    have hld : l = dedupFirstAux [] (records.filterMap (candOf th)) :=
      (Option.some.injEq _ _).mp hloop
    have hcand : outlineCandidates records = records.filterMap (candOf th) := by
      unfold outlineCandidates
      rw [hth]
    have hperm := List.perm_insertionSort pageLE l
    constructor
    · refine (hperm.pairwise_iff fun hab => Ne.symm hab).mpr ?_
      rw [hld]
      exact dedupFirstAux_pairwise [] _
    · intro e he
      have he' : e ∈ l := hperm.mem_iff.mp he
      rw [hcand]
      exact (dedupFirstAux_mem [] _ e (hld ▸ he')).2.2

/-- Witness for C5 on the spec's worked example. -/
theorem extract_outline_dedup_witness :
    ([⟨HeadingLevel.H1, "1.1 Background", 1⟩] : List OutlineEntry).Pairwise
      (fun a b => a.text ≠ b.text) ∧
    ∀ e ∈ ([⟨HeadingLevel.H1, "1.1 Background", 1⟩] : List OutlineEntry),
      ((outlineCandidates ex1).filter (fun c => c.text == e.text)).head? = some e :=
  extract_outline_dedup ex1 ⟨"Introduction", [⟨HeadingLevel.H1, "1.1 Background", 1⟩]⟩
    (by decide) (by decide)

/-- C6: the assembled outline is sorted by page ascending, and the sort is
stable: filtering the final outline by any fixed page yields exactly the
entries of that page in their original encounter order (the deduplicated
candidate stream). -/
theorem extract_outline_sorted_stable (records : List LineRecord)
    (res : OutlineResult) (p : Nat)
    (hwf : ∀ r ∈ records, pyStrip r.text ≠ "")
    (h : extract_outline records = some res) :
    res.outline.Sorted pageLE ∧
    res.outline.filter (fun e => e.page == p) =
      (dedupFirstAux [] (outlineCandidates records)).filter (fun e => e.page == p) := by
  rcases extract_outline_inv records res h with ⟨hrec, hres⟩ | ⟨th, l, hth, hl, hres⟩
  · subst hres
    subst hrec
    exact ⟨List.sorted_nil, rfl⟩
  · subst hres
    have hloop := outlineLoop_eq th records [] hwf
    rw [hl] at hloop
    have hld : l = dedupFirstAux [] (records.filterMap (candOf th)) :=
      (Option.some.injEq _ _).mp hloop
    have hcand : outlineCandidates records = records.filterMap (candOf th) := by
      unfold outlineCandidates
      rw [hth]
    constructor
    · exact List.sorted_insertionSort pageLE l
    · rw [filter_insertionSort_page, hld, hcand]

/-- Witness for C6 on the spec's worked example. -/
theorem extract_outline_sorted_stable_witness :
    ([⟨HeadingLevel.H1, "1.1 Background", 1⟩] : List OutlineEntry).Sorted pageLE ∧
    ([⟨HeadingLevel.H1, "1.1 Background", 1⟩] : List OutlineEntry).filter
        (fun e => e.page == 1) =
      (dedupFirstAux [] (outlineCandidates ex1)).filter (fun e => e.page == 1) :=
  extract_outline_sorted_stable ex1
    ⟨"Introduction", [⟨HeadingLevel.H1, "1.1 Background", 1⟩]⟩ 1 (by decide) (by decide)

/-- C3 (amended): every assembled outline entry has normalized text of
length > 2, so lines whose normalized text is shorter than 3 characters
never appear in the outline; the 200-character upper bound of the pattern
gate, however, does not bound outline entries or the selected title, since
the uppercase-start fallback and the title selector ignore it. -/
theorem outline_entry_length (records : List LineRecord) (res : OutlineResult)
    (hwf : ∀ r ∈ records, pyStrip r.text ≠ "")
    (h : extract_outline records = some res) :
    ∀ e ∈ res.outline, 2 < e.text.length := by
  intro e he
  rcases extract_outline_inv records res h with ⟨hrec, hres⟩ | ⟨th, l, hth, hl, hres⟩
  · subst hres
    simp at he
  · subst hres
    have hloop := outlineLoop_eq th records [] hwf
    rw [hl] at hloop
    have hld : l = dedupFirstAux [] (records.filterMap (candOf th)) :=
      (Option.some.injEq _ _).mp hloop
    have he' : e ∈ l := (List.perm_insertionSort pageLE l).mem_iff.mp he
    obtain ⟨r, _, hc⟩ := List.mem_filterMap.mp (dedupFirstAux_mem [] _ e (hld ▸ he')).1
    exact candOf_length hc

/-- Witness for C3's amended claim on the spec's worked example. -/
theorem outline_entry_length_witness :
    2 < (⟨HeadingLevel.H1, "1.1 Background", 1⟩ : OutlineEntry).text.length :=
  outline_entry_length ex1 ⟨"Introduction", [⟨HeadingLevel.H1, "1.1 Background", 1⟩]⟩
    (by decide) (by decide) ⟨HeadingLevel.H1, "1.1 Background", 1⟩ (by decide)
